import Mathlib

/-!
Verification of `playbooks/library/cloudera/cdh.py` (ansible-hadoop).

The Python module orchestrates a Cloudera CDH cluster bring-up: a retry
decorator, a `Parcels` lifecycle manager, a generic `Service` deployment
class, and a `ClouderaManager` top-level controller.  We shallowly embed
the relevant functions as pure Lean definitions over explicit traces of
remote-API events, and prove the specified properties about them.
-/

set_option maxHeartbeats 1000000

/-- Outcome of one invocation of a Python callable, as observed by a caller:
a returned value, a raised `ApiException`, or any other raised exception
(`Exception`, `SystemExit` from `fail()`, `KeyError`, ...). -/
inductive Outcome (α : Type) where
  | ok (v : α)
  | apiErr (e : String)
  | otherErr (e : String)
deriving DecidableEq, Repr

/-- What a call to a `retry`-wrapped function does in the end: return a value
(`none` models Python falling off the loop and returning `None`), raise an
`ApiException`, or raise some other exception. -/
inductive RetryResult (α : Type) where
  | returns (v : Option α)
  | raisesApi (e : String)
  | raisesOther (e : String)
deriving DecidableEq, Repr

/-- Visible events of a retry loop: the i-th invocation of the wrapped
function (1-based), and a `time.sleep(delay)`. -/
inductive REvent where
  | call (i : Nat)
  | sleep (d : Int)
deriving DecidableEq, Repr

def isCallEv : REvent → Bool
  | .call _ => true
  | .sleep _ => false

/-- Number of invocations of the wrapped function recorded in a trace. -/
def callCount (evs : List REvent) : Nat := evs.countP isCallEv

/-- Embedding of the body of `retry.deco_retry.retry_loop` from cdh.py:

    attempt_counter = 1
    while attempt_counter <= attempts:
        try:
            return func(*args, **kwargs)
        except ApiException as apie:
            if attempt_counter == attempts:
                raise
            time.sleep(delay)
            attempt_counter += 1

`f i` is the outcome of the i-th invocation of `func` (1-based).
`attempts` is an `Int` because the Python parameter may be any integer.
Returns the event trace together with the final result; falling out of the
`while` loop returns `None`. -/
def retryGo {α : Type} (f : Nat → Outcome α) (attempts delay : Int)
    (counter : Nat) : List REvent × RetryResult α :=
  if h : (counter : Int) ≤ attempts then
    match f counter with
    | .ok v => ([.call counter], .returns (some v))
    | .otherErr e => ([.call counter], .raisesOther e)
    | .apiErr e =>
      if (counter : Int) = attempts then
        ([.call counter], .raisesApi e)
      else
        let rest := retryGo f attempts delay (counter + 1)
        (.call counter :: .sleep delay :: rest.1, rest.2)
  else
    ([], .returns none)
termination_by (attempts + 1 - counter).toNat
decreasing_by omega

/-- A call of the `retry(attempts, delay)`-wrapped version of a function
whose successive invocation outcomes are `f 1, f 2, ...`. -/
def retry_loop {α : Type} (f : Nat → Outcome α) (attempts delay : Int) :
    List REvent × RetryResult α :=
  retryGo f attempts delay 1

/-- `retry`'s default parameters in cdh.py: `attempts=3, delay=5`. -/
def retryDefaultAttempts : Int := 3

def retryDefaultDelay : Int := 5

/-- The expected trace of a retry loop that runs invocations `c, c+1, ..., k`:
every invocation except the last is followed by a sleep of `delay`. -/
def expectedTraceFrom (c k : Nat) (delay : Int) : List REvent :=
  if c < k then .call c :: .sleep delay :: expectedTraceFrom (c + 1) k delay
  else [.call k]
termination_by k - c

/-- Trace of invocations `1, ..., k` with sleeps in between. -/
def expectedTrace (k : Nat) (delay : Int) : List REvent :=
  expectedTraceFrom 1 k delay

/-- Runs `c, ..., c+n` where the invocations `c, ..., c+n-1` raise
`ApiException` and invocation `c+n` returns a value: the loop returns that
value verbatim, sleeping `delay` after each failed attempt. -/
theorem retryGo_ok {α : Type} (f : Nat → Outcome α) (attempts delay : Int) :
    ∀ (n c k : Nat) (v : α), k = c + n → 1 ≤ c → (k : Int) ≤ attempts →
      f k = .ok v → (∀ j, c ≤ j → j < k → ∃ e, f j = .apiErr e) →
      retryGo f attempts delay c = (expectedTraceFrom c k delay, .returns (some v)) := by
  intro n
  induction n with
  | zero =>
    intro c k v hk _ hka hfk _
    have hkc : k = c := by omega
    subst hkc
    rw [retryGo, dif_pos hka, hfk, expectedTraceFrom, if_neg (lt_irrefl k)]
  | succ n ih =>
    intro c k v hk hc hka hfk hprev
    have hck : c < k := by omega
    obtain ⟨e, hfc⟩ := hprev c (le_refl c) hck
    have hca : (c : Int) ≤ attempts := by
      have : (c : Int) < (k : Int) := by exact_mod_cast hck
      omega
    have hcne : ¬ ((c : Int) = attempts) := by
      have : (c : Int) < (k : Int) := by exact_mod_cast hck
      omega
    rw [retryGo, dif_pos hca, hfc]
    dsimp only
    rw [if_neg hcne, ih (c + 1) k v (by omega) (by omega) hka hfk
      (fun j hj hjk => hprev j (by omega) hjk)]
    conv_rhs => rw [expectedTraceFrom, if_pos hck]

/-- Runs `c, ..., c+n` where the invocations `c, ..., c+n-1` raise
`ApiException` and invocation `c+n` raises a non-`ApiException`: the loop
propagates it immediately. -/
theorem retryGo_other {α : Type} (f : Nat → Outcome α) (attempts delay : Int) :
    ∀ (n c k : Nat) (e : String), k = c + n → 1 ≤ c → (k : Int) ≤ attempts →
      f k = .otherErr e → (∀ j, c ≤ j → j < k → ∃ e2, f j = .apiErr e2) →
      retryGo f attempts delay c = (expectedTraceFrom c k delay, .raisesOther e) := by
  intro n
  induction n with
  | zero =>
    intro c k e hk _ hka hfk _
    have hkc : k = c := by omega
    subst hkc
    rw [retryGo, dif_pos hka, hfk, expectedTraceFrom, if_neg (lt_irrefl k)]
  | succ n ih =>
    intro c k e hk hc hka hfk hprev
    have hck : c < k := by omega
    obtain ⟨e2, hfc⟩ := hprev c (le_refl c) hck
    have hca : (c : Int) ≤ attempts := by
      have : (c : Int) < (k : Int) := by exact_mod_cast hck
      omega
    have hcne : ¬ ((c : Int) = attempts) := by
      have : (c : Int) < (k : Int) := by exact_mod_cast hck
      omega
    rw [retryGo, dif_pos hca, hfc]
    dsimp only
    rw [if_neg hcne, ih (c + 1) k e (by omega) (by omega) hka hfk
      (fun j hj hjk => hprev j (by omega) hjk)]
    conv_rhs => rw [expectedTraceFrom, if_pos hck]

/-- Runs `c, ..., k` with `k = attempts` where every invocation raises
`ApiException`: the final attempt's exception is re-raised unchanged. -/
theorem retryGo_allApi {α : Type} (f : Nat → Outcome α) (attempts delay : Int) :
    ∀ (n c k : Nat), k = c + n → 1 ≤ c → (k : Int) = attempts →
      (∀ j, c ≤ j → j ≤ k → ∃ e, f j = .apiErr e) →
      ∃ e, f k = .apiErr e ∧
        retryGo f attempts delay c = (expectedTraceFrom c k delay, .raisesApi e) := by
  intro n
  induction n with
  | zero =>
    intro c k hk _ hka hall
    have hkc : k = c := by omega
    subst hkc
    obtain ⟨e, hfc⟩ := hall k (le_refl k) (le_refl k)
    refine ⟨e, hfc, ?_⟩
    rw [retryGo, dif_pos (le_of_eq hka), hfc]
    dsimp only
    rw [if_pos hka, expectedTraceFrom, if_neg (lt_irrefl k)]
  | succ n ih =>
    intro c k hk hc hka hall
    have hck : c < k := by omega
    obtain ⟨e2, hfc⟩ := hall c (le_refl c) (le_of_lt hck)
    have hca : (c : Int) ≤ attempts := by
      have : (c : Int) < (k : Int) := by exact_mod_cast hck
      omega
    have hcne : ¬ ((c : Int) = attempts) := by
      have : (c : Int) < (k : Int) := by exact_mod_cast hck
      omega
    obtain ⟨e, hfk, hrec⟩ := ih (c + 1) k (by omega) (by omega) hka
      (fun j hj hjk => hall j (by omega) hjk)
    refine ⟨e, hfk, ?_⟩
    rw [retryGo, dif_pos hca, hfc]
    dsimp only
    rw [if_neg hcne, hrec]
    conv_rhs => rw [expectedTraceFrom, if_pos hck]

/-- The loop starting at counter `c` invokes the function at most
`(attempts + 1 - c).toNat` times. -/
theorem callCount_retryGo {α : Type} :
    ∀ (fuel : Nat) (f : Nat → Outcome α) (attempts delay : Int) (c : Nat),
      (attempts + 1 - c).toNat ≤ fuel →
      callCount (retryGo f attempts delay c).1 ≤ fuel := by
  intro fuel
  induction fuel with
  | zero =>
    intro f attempts delay c hf
    have : ¬ ((c : Int) ≤ attempts) := by omega
    rw [retryGo, dif_neg this]
    simp [callCount]
  | succ fuel ih =>
    intro f attempts delay c hf
    by_cases hca : (c : Int) ≤ attempts
    · rw [retryGo, dif_pos hca]
      cases hfc : f c with
      | ok v => simp [callCount, isCallEv]
      | otherErr e => simp [callCount, isCallEv]
      | apiErr e =>
        by_cases hcne : (c : Int) = attempts
        · simp only [if_pos hcne]
          simp [callCount, isCallEv]
        · simp only [if_neg hcne]
          have hrec := ih f attempts delay (c + 1) (by omega)
          simp [callCount, List.countP_cons, isCallEv] at hrec ⊢
          omega
    · rw [retryGo, dif_neg hca]
      simp [callCount]

/-- Claim C4: for `retry(attempts, delay)` with positive `attempts`:
the wrapped function is invoked at most `attempts` times; after every
`ApiException` before the final attempt the wrapper sleeps `delay` and
retries (visible in the trace shape); a first success returns the value
verbatim; a non-`ApiException` is propagated immediately with no further
invocation; and when every attempt up to the last raises `ApiException`,
the final attempt's exception is propagated unchanged. -/
theorem retry_spec {α : Type} (f : Nat → Outcome α) (attempts delay : Int)
    (h : 0 < attempts) :
    callCount (retry_loop f attempts delay).1 ≤ attempts.toNat
    ∧ (∀ (k : Nat) (v : α), 1 ≤ k → (k : Int) ≤ attempts → f k = .ok v →
        (∀ j, 1 ≤ j → j < k → ∃ e, f j = .apiErr e) →
        retry_loop f attempts delay = (expectedTrace k delay, .returns (some v)))
    ∧ (∀ (k : Nat) (e : String), 1 ≤ k → (k : Int) ≤ attempts → f k = .otherErr e →
        (∀ j, 1 ≤ j → j < k → ∃ e2, f j = .apiErr e2) →
        retry_loop f attempts delay = (expectedTrace k delay, .raisesOther e))
    ∧ ((∀ (j : Nat), 1 ≤ j → (j : Int) ≤ attempts → ∃ e, f j = .apiErr e) →
        ∃ e, f attempts.toNat = .apiErr e ∧
          retry_loop f attempts delay =
            (expectedTrace attempts.toNat delay, .raisesApi e)) := by
  refine ⟨?_, ?_, ?_, ?_⟩
  · have := callCount_retryGo attempts.toNat f attempts delay 1 (by omega)
    exact this
  · intro k v hk hka hfk hprev
    exact retryGo_ok f attempts delay (k - 1) 1 k v (by omega) (le_refl 1) hka hfk
      (fun j hj hjk => hprev j hj hjk)
  · intro k e hk hka hfk hprev
    exact retryGo_other f attempts delay (k - 1) 1 k e (by omega) (le_refl 1) hka hfk
      (fun j hj hjk => hprev j hj hjk)
  · intro hall
    have hA : ((attempts.toNat : Int)) = attempts := by omega
    exact retryGo_allApi f attempts delay (attempts.toNat - 1) 1 attempts.toNat
      (by omega) (le_refl 1) hA
      (fun j hj hjk => hall j hj (by omega))

/-- Witness for C4 at a concrete input: `attempts = 2`, a function whose
first invocation raises `ApiException` and whose second succeeds. -/
theorem retry_spec_witness :
    (0 : Int) < 2 ∧
      callCount
        (retry_loop
          (fun i => if i = 1 then Outcome.apiErr "boom" else Outcome.ok 3)
          2 5).1 ≤ (2 : Int).toNat := by
  refine ⟨by norm_num, ?_⟩
  exact (retry_spec
    (fun i => if i = 1 then Outcome.apiErr "boom" else Outcome.ok 3)
    2 5 (by norm_num)).1

/-- Claim C10: calling a function wrapped by `retry(attempts, delay)` with
`attempts ≤ 0` returns `None` without invoking the wrapped function even
once: the `while attempt_counter <= attempts` loop body is never entered. -/
theorem retry_nonpositive_attempts_returns_none
    (f : Nat → Outcome Nat) (attempts delay : Int) (h : attempts ≤ 0) :
    retry_loop f attempts delay = ([], .returns none) := by
  rw [retry_loop, retryGo]
  rw [dif_neg]
  omega

/-- Witness for C10 at `attempts = 0`: no events, no calls, returns `None`. -/
theorem retry_nonpositive_attempts_returns_none_witness :
    (0 : Int) ≤ 0 ∧
      retry_loop (fun _ => Outcome.ok 7) 0 5 = ([], .returns none) ∧
      callCount (retry_loop (fun _ => Outcome.ok 7) 0 5).1 = 0 := by
  refine ⟨le_refl 0, retry_nonpositive_attempts_returns_none _ 0 5 (le_refl 0), ?_⟩
  rw [retry_nonpositive_attempts_returns_none _ 0 5 (le_refl 0)]
  rfl

/-- `callCount` of the expected retry trace for invocations `c, ..., c+n`. -/
theorem callCount_expectedTraceFrom (delay : Int) :
    ∀ (n c k : Nat), k = c + n →
      callCount (expectedTraceFrom c k delay) = n + 1 := by
  intro n
  induction n with
  | zero =>
    intro c k hk
    have hkc : k = c := by omega
    subst hkc
    rw [expectedTraceFrom, if_neg (lt_irrefl k)]
    rfl
  | succ n ih =>
    intro c k hk
    have hck : c < k := by omega
    rw [expectedTraceFrom, if_pos hck]
    have := ih (c + 1) k (by omega)
    simp [callCount, List.countP_cons, isCallEv] at this ⊢
    omega

/-! ## Parcels -/

/-- The `parcel.state` object: error list and progress counters. -/
structure ParcelStateInfo where
  errors : List String
  progress : Int
  totalProgress : Int
deriving DecidableEq, Repr

/-- What one `cluster.get_parcel(CDH, version)` fetch returns: the parcel
stage and its state. -/
structure ParcelView where
  stage : String
  state : ParcelStateInfo
deriving DecidableEq, Repr

/-- Outcome of one execution of the body of `Parcels.check_state`:
`check_error` calls `fail` (a non-`ApiException` abort) when the parcel
state carries errors; success when the stage is in the wanted list;
otherwise an `ApiException` is raised for the `retry` wrapper. -/
inductive CheckOnce where
  | fatalErrors (errs : List String)
  | success
  | transient (msg : String)
deriving DecidableEq, Repr

/-- One execution of the body of `Parcels.check_state(states)` on a fetched
parcel:

    parcel = self.parcel
    self.check_error(parcel)
    if parcel.stage in states:
        return
    else:
        raise ApiException("Waiting on parcel to get to state ...")
-/
def check_state_once (parcel : ParcelView) (states : List String) : CheckOnce :=
  if parcel.state.errors ≠ [] then .fatalErrors parcel.state.errors
  else if parcel.stage ∈ states then .success
  else .transient ("Waiting on parcel to get to state " ++ states.headD "")

/-- How each `CheckOnce` outcome appears to the `retry` wrapper: `fail`
raises a non-`ApiException` (fatal, not retried), success returns,
and the wait message is an `ApiException` (transient, retried). -/
def checkOnceToOutcome : CheckOnce → Outcome Unit
  | .fatalErrors errs => .otherErr (String.intercalate "," errs)
  | .success => .ok ()
  | .transient msg => .apiErr msg

/-- `@retry(attempts=20, delay=30)` on `Parcels.check_state`. -/
def check_state_attempts : Int := 20

def check_state_delay : Int := 30

/-- The retried `Parcels.check_state(states)`: `fetch i` is the parcel view
returned by the i-th `self.parcel` property access. -/
def check_state (fetch : Nat → ParcelView) (states : List String) :
    List REvent × RetryResult Unit :=
  retry_loop (fun i => checkOnceToOutcome (check_state_once (fetch i) states))
    check_state_attempts check_state_delay

/-- Target stages of `Parcels.download`. -/
def download_states : List String := ["DOWNLOADED", "DISTRIBUTED", "ACTIVATED", "INUSE"]

/-- Target stages of `Parcels.distribute`. -/
def distribute_states : List String := ["DISTRIBUTED", "ACTIVATED", "INUSE"]

/-- Target stages of `Parcels.activate`. -/
def activate_states : List String := ["ACTIVATED", "INUSE"]

/-- The remote commands triggered right before each post-check. -/
inductive PEvent where
  | startDownload
  | startDistribution
  | activateCmd
deriving DecidableEq, Repr

/-- `Parcels.download`: `self.parcel.start_download()` then the post-check. -/
def Parcels_download (fetch : Nat → ParcelView) :
    PEvent × (List REvent × RetryResult Unit) :=
  (.startDownload, check_state fetch download_states)

/-- `Parcels.distribute`: `self.parcel.start_distribution()` then the post-check. -/
def Parcels_distribute (fetch : Nat → ParcelView) :
    PEvent × (List REvent × RetryResult Unit) :=
  (.startDistribution, check_state fetch distribute_states)

/-- `Parcels.activate`: `self.parcel.activate()` then the post-check. -/
def Parcels_activate (fetch : Nat → ParcelView) :
    PEvent × (List REvent × RetryResult Unit) :=
  (.activateCmd, check_state fetch activate_states)

/-- Claim C6: one poll of `Parcels.check_state(states)` fails fatally (via a
non-`ApiException`, hence never retried) whenever the fetched parcel carries
errors; with no errors it succeeds exactly when the stage is in the target
list, and otherwise raises a transient `ApiException`; the wrapper retries
it with `attempts=20, delay=30`, so 20 consecutive transient polls exhaust
the bound and re-raise the `ApiException`; and the target lists of
`download`/`distribute`/`activate` are the at-or-beyond sets, each later
phase list contained in every earlier phase list, so a stage already past
the immediately requested phase still counts as success. -/
theorem parcels_check_state_spec :
    (∀ p s, p.state.errors ≠ [] → check_state_once p s = .fatalErrors p.state.errors)
    ∧ (∀ p s, p.state.errors ≠ [] →
        checkOnceToOutcome (check_state_once p s) =
          .otherErr (String.intercalate "," p.state.errors))
    ∧ (∀ p s, p.state.errors = [] → (check_state_once p s = .success ↔ p.stage ∈ s))
    ∧ (∀ p s, p.state.errors = [] → p.stage ∉ s →
        check_state_once p s =
          .transient ("Waiting on parcel to get to state " ++ s.headD ""))
    ∧ check_state_attempts = 20 ∧ check_state_delay = 30
    ∧ (∀ fetch s, check_state fetch s =
        retry_loop (fun i => checkOnceToOutcome (check_state_once (fetch i) s)) 20 30)
    ∧ (∀ fetch s,
        (∀ i, 1 ≤ i → i ≤ 20 → (fetch i).state.errors = [] ∧ (fetch i).stage ∉ s) →
        ∃ e, (check_state fetch s).2 = .raisesApi e
          ∧ callCount (check_state fetch s).1 = 20)
    ∧ (∀ fetch, (Parcels_download fetch).2 = check_state fetch download_states)
    ∧ (∀ fetch, (Parcels_distribute fetch).2 = check_state fetch distribute_states)
    ∧ (∀ fetch, (Parcels_activate fetch).2 = check_state fetch activate_states)
    ∧ download_states = ["DOWNLOADED", "DISTRIBUTED", "ACTIVATED", "INUSE"]
    ∧ distribute_states = ["DISTRIBUTED", "ACTIVATED", "INUSE"]
    ∧ activate_states = ["ACTIVATED", "INUSE"]
    ∧ (∀ st, st ∈ activate_states → st ∈ distribute_states)
    ∧ (∀ st, st ∈ distribute_states → st ∈ download_states) := by
  refine ⟨?_, ?_, ?_, ?_, rfl, rfl, fun _ _ => rfl, ?_, fun _ => rfl, fun _ => rfl,
    fun _ => rfl, rfl, rfl, rfl, by decide, by decide⟩
  · intro p s h
    simp [check_state_once, h]
  · intro p s h
    simp [check_state_once, checkOnceToOutcome, h]
  · intro p s h
    by_cases hm : p.stage ∈ s <;> simp [check_state_once, checkOnceToOutcome, h, hm]
  · intro p s h hm
    simp [check_state_once, h, hm]
  · intro fetch s hall
    have h20 : (0 : Int) < 20 := by norm_num
    have hspec := (retry_spec
      (fun i => checkOnceToOutcome (check_state_once (fetch i) s)) 20 30 h20).2.2.2
    have hall2 : ∀ (j : Nat), 1 ≤ j → (j : Int) ≤ 20 →
        ∃ e, (fun i => checkOnceToOutcome (check_state_once (fetch i) s)) j
          = Outcome.apiErr e := by
      intro j hj hj20
      have hj20n : j ≤ 20 := by exact_mod_cast hj20
      obtain ⟨herr, hst⟩ := hall j hj hj20n
      have honce : check_state_once (fetch j) s =
          .transient ("Waiting on parcel to get to state " ++ s.headD "") := by
        simp [check_state_once, herr, hst]
      exact ⟨"Waiting on parcel to get to state " ++ s.headD "",
        by dsimp only; rw [honce]; rfl⟩
    obtain ⟨e, _, hloop⟩ := hspec hall2
    have h20n : ((20 : Int)).toNat = 20 := rfl
    rw [h20n] at hloop
    refine ⟨e, ?_, ?_⟩
    · show (retry_loop _ check_state_attempts check_state_delay).2 = _
      rw [show check_state_attempts = (20 : Int) from rfl,
        show check_state_delay = (30 : Int) from rfl, hloop]
    · show callCount (retry_loop _ check_state_attempts check_state_delay).1 = 20
      rw [show check_state_attempts = (20 : Int) from rfl,
        show check_state_delay = (30 : Int) from rfl, hloop]
      rw [expectedTrace, callCount_expectedTraceFrom 30 19 1 20 (by norm_num)]

/-- `'REMOTE_PARCEL_REPO_URLS'` from cdh.py. -/
def REMOTE_PARCEL_REPO_URLS : String := "REMOTE_PARCEL_REPO_URLS"

/-- The `repo_config` entry returned by `manager.get_config(view='full')`:
its current value (`None` when unset) and its default. -/
structure RepoConfigEntry where
  value : Option String
  default : String
deriving DecidableEq, Repr

/-- Python `repo_config.value or repo_config.default`: the default is used
when the value is `None` or the empty (falsy) string. -/
def pyOr (v : Option String) (d : String) : String :=
  match v with
  | some s => if s = "" then d else s
  | none => d

/-- Inputs of one `Parcels.validate()` run: the first
`cluster.get_parcel(CDH, version)` outcome, the configured `repo`
(`None` when unsupplied), the manager's `REMOTE_PARCEL_REPO_URLS` config
entry, and the outcomes of later `self.parcel` fetches inside
`wait_parcel` (1-based). -/
structure ValidateEnv where
  initial : Outcome ParcelView
  repo : Option String
  repoConfig : RepoConfigEntry
  refetch : Nat → Outcome ParcelView

/-- Final outcome of `Parcels.validate()`. -/
inductive VOutcome where
  | ok
  | raisedNoRepo (msg : String)
  | failErrors (errs : List String)
  | apiRaised (msg : String)
  | otherRaised (msg : String)
deriving DecidableEq, Repr

/-- Observable result of a `Parcels.validate()` run: the
`manager.update_config` calls performed, the retry trace of `wait_parcel`,
and the final outcome. -/
structure ValidateRun where
  updates : List (String × String)
  pollEvents : List REvent
  outcome : VOutcome
deriving DecidableEq, Repr

/-- Embedding of `Parcels.validate`:

    @retry()
    def wait_parcel():
        return self.parcel

    try:
        self.check_error(self.cluster.get_parcel(CDH, self.version))
    except ApiException:
        if self.repo is None:
            raise Exception("None of the existing repos contain ...")
        cm_config = self.manager.get_config(view='full')
        repo_config = cm_config[REMOTE_PARCEL_REPO_URLS]
        value = ','.join([repo_config.value or repo_config.default, self.repo])
        self.manager.update_config({REMOTE_PARCEL_REPO_URLS: value})
        self.check_error(wait_parcel())

Note `@retry()` uses the decorator defaults `attempts=3, delay=5`.
A non-`ApiException` from the first fetch is not caught; `fail` inside
`check_error` raises a non-`ApiException`. -/
def Parcels_validate (env : ValidateEnv) : ValidateRun :=
  match env.initial with
  | .ok p =>
    if p.state.errors ≠ [] then ⟨[], [], .failErrors p.state.errors⟩ else ⟨[], [], .ok⟩
  | .otherErr m => ⟨[], [], .otherRaised m⟩
  | .apiErr _ =>
    match env.repo with
    | none => ⟨[], [], .raisedNoRepo
        ("None of the existing repos contain the requested parcel version. "
          ++ "Please specify a parcel repo.")⟩
    | some r =>
      let value := pyOr env.repoConfig.value env.repoConfig.default ++ "," ++ r
      let poll := retry_loop env.refetch retryDefaultAttempts retryDefaultDelay
      let out : VOutcome :=
        match poll.2 with
        | .returns (some p) =>
          if p.state.errors ≠ [] then .failErrors p.state.errors else .ok
        | .returns none => .otherRaised "AttributeError"
        | .raisesApi m => .apiRaised m
        | .raisesOther m => .otherRaised m
      ⟨[(REMOTE_PARCEL_REPO_URLS, value)], poll.1, out⟩

/-- A validate run where the parcel is never found: the first fetch raises
`ApiException`, a supplementary repo is configured, and every re-poll inside
`wait_parcel` keeps raising `ApiException`. -/
def validateEnvStuck : ValidateEnv where
  initial := .apiErr "not found"
  repo := some "http://parcelrepo.example/cdh5/"
  repoConfig := ⟨some "http://existing.repo/", "http://default.repo/"⟩
  refetch := fun _ => .apiErr "not found"

/-- With every re-poll failing, `wait_parcel` (retried with the decorator
defaults `attempts=3, delay=5`) runs exactly 3 invocations with 5-second
sleeps and re-raises the `ApiException`. -/
theorem validateEnvStuck_poll :
    retry_loop (fun _ => (Outcome.apiErr "not found" : Outcome ParcelView)) 3 5 =
      ([.call 1, .sleep 5, .call 2, .sleep 5, .call 3], .raisesApi "not found") := by
  obtain ⟨e, he, hl⟩ := retryGo_allApi
    (fun _ => (Outcome.apiErr "not found" : Outcome ParcelView)) 3 5 2 1 3 rfl
    (le_refl 1) rfl (fun j _ _ => ⟨"not found", rfl⟩)
  have he2 : Outcome.apiErr (α := ParcelView) "not found" = Outcome.apiErr e := he
  injection he2 with he3
  subst he3
  rw [retry_loop, hl]
  have htr : expectedTraceFrom 1 3 5 = [.call 1, .sleep 5, .call 2, .sleep 5, .call 3] := by
    rw [expectedTraceFrom, if_pos (by norm_num), expectedTraceFrom, if_pos (by norm_num),
      expectedTraceFrom, if_neg (by norm_num)]
  rw [htr]

/-- Counterexample to claim C2 as stated: when remediation kicks in, the
re-poll of the parcel is bounded by the `retry()` decorator DEFAULTS - 3
attempts with 5-second delays - not by 20 attempts with 30-second delays.
On a parcel that never appears, `validate` invokes the fetch exactly 3
times, sleeps 5 seconds (never 30) between attempts, and re-raises the
`ApiException`. -/
theorem parcels_validate_retry_counterexample :
    (Parcels_validate validateEnvStuck).updates =
      [(REMOTE_PARCEL_REPO_URLS, "http://existing.repo/,http://parcelrepo.example/cdh5/")]
    ∧ callCount (Parcels_validate validateEnvStuck).pollEvents = 3
    ∧ callCount (Parcels_validate validateEnvStuck).pollEvents ≠ 20
    ∧ (Parcels_validate validateEnvStuck).pollEvents.count (REvent.sleep 5) = 2
    ∧ REvent.sleep 30 ∉ (Parcels_validate validateEnvStuck).pollEvents
    ∧ (Parcels_validate validateEnvStuck).outcome = .apiRaised "not found" := by
  have hrun : Parcels_validate validateEnvStuck =
      ⟨[(REMOTE_PARCEL_REPO_URLS,
          "http://existing.repo/,http://parcelrepo.example/cdh5/")],
        [.call 1, .sleep 5, .call 2, .sleep 5, .call 3], .apiRaised "not found"⟩ := by
    rw [Parcels_validate]
    dsimp only [validateEnvStuck, retryDefaultAttempts, retryDefaultDelay]
    rw [validateEnvStuck_poll]
    rfl
  rw [hrun]
  refine ⟨rfl, rfl, by decide, by decide, by decide, rfl⟩

/-- Claim C2 (amended): in `Parcels.validate()`, when the initial parcel
fetch raises `ApiException` and a supplementary repository URL was supplied,
exactly one config update is issued, whose value comma-joins the
supplementary URL AFTER the existing `REMOTE_PARCEL_REPO_URLS` value (or its
default when the value is unset/empty) - a join with the existing value, not
a replacement - and the parcel is then re-polled until it resolves without
error using the `retry()` decorator defaults: at most 3 attempts with
5 seconds delay between attempts. -/
theorem parcels_validate_remediation (env : ValidateEnv) (m r : String)
    (h1 : env.initial = .apiErr m) (h2 : env.repo = some r) :
    (Parcels_validate env).updates =
      [(REMOTE_PARCEL_REPO_URLS,
        pyOr env.repoConfig.value env.repoConfig.default ++ "," ++ r)]
    ∧ (Parcels_validate env).pollEvents = (retry_loop env.refetch 3 5).1
    ∧ retryDefaultAttempts = 3 ∧ retryDefaultDelay = 5
    ∧ callCount (Parcels_validate env).pollEvents ≤ 3
    ∧ (∀ (k : Nat) (p : ParcelView), 1 ≤ k → (k : Int) ≤ 3 → env.refetch k = .ok p →
        p.state.errors = [] →
        (∀ j, 1 ≤ j → j < k → ∃ e, env.refetch j = .apiErr e) →
        (Parcels_validate env).outcome = .ok) := by
  obtain ⟨init, repo, rc, refetch⟩ := env
  dsimp only at h1 h2
  subst h1
  subst h2
  refine ⟨rfl, rfl, rfl, rfl, ?_, ?_⟩
  · show callCount (retry_loop refetch retryDefaultAttempts retryDefaultDelay).1 ≤ 3
    exact callCount_retryGo 3 refetch retryDefaultAttempts retryDefaultDelay 1
      (by rw [retryDefaultAttempts]; norm_num)
  · intro k p hk hk3 hfk herr hprev
    have hloop := (retry_spec refetch 3 5 (by norm_num)).2.1 k p hk hk3 hfk hprev
    show (match (retry_loop refetch retryDefaultAttempts retryDefaultDelay).2 with
      | RetryResult.returns (some q) =>
        if q.state.errors ≠ [] then VOutcome.failErrors q.state.errors else VOutcome.ok
      | RetryResult.returns none => VOutcome.otherRaised "AttributeError"
      | RetryResult.raisesApi msg => VOutcome.apiRaised msg
      | RetryResult.raisesOther msg => VOutcome.otherRaised msg) = VOutcome.ok
    rw [show retryDefaultAttempts = (3 : Int) from rfl,
      show retryDefaultDelay = (5 : Int) from rfl, hloop]
    simp [herr]

/-- A validate run that recovers: first fetch raises, repo supplied with no
existing repo value, the first re-poll raises, the second finds a clean
parcel. -/
def validateEnvRecovers : ValidateEnv where
  initial := .apiErr "not found"
  repo := some "http://parcelrepo.example/cdh5/"
  repoConfig := ⟨none, "http://default.repo/"⟩
  refetch := fun i => if i = 1 then .apiErr "not found" else .ok ⟨"AVAILABLE", ⟨[], 0, 0⟩⟩

/-- Witness for the amended C2 at a concrete input: the update joins the
default repo list with the supplied URL, and validate succeeds once the
re-poll finds a clean parcel. -/
theorem parcels_validate_remediation_witness :
    (Parcels_validate validateEnvRecovers).updates =
      [(REMOTE_PARCEL_REPO_URLS, "http://default.repo/,http://parcelrepo.example/cdh5/")]
    ∧ (Parcels_validate validateEnvRecovers).outcome = .ok := by
  have h := parcels_validate_remediation validateEnvRecovers "not found"
    "http://parcelrepo.example/cdh5/" rfl rfl
  refine ⟨h.1, ?_⟩
  exact h.2.2.2.2.2 2 ⟨"AVAILABLE", ⟨[], 0, 0⟩⟩ (by norm_num) (by norm_num) rfl rfl
    (fun j hj hjk => ⟨"not found", by
      have hj1 : j = 1 := by omega
      subst hj1
      rfl⟩)

/-! ## Decimal representation: injectivity of `Nat.repr`

The role names built by `'{}-{}-{}'.format(name, group, role_id)` embed the
decimal rendering of the 1-based ordinal; distinct ordinals give distinct
role names. -/

/-- Most-significant-first decimal digit characters of a natural number,
the specification of core's fuelled `Nat.toDigitsCore`. -/
def digits10 (n : Nat) : List Char :=
  if n < 10 then [Nat.digitChar n]
  else digits10 (n / 10) ++ [Nat.digitChar (n % 10)]
termination_by n
decreasing_by omega

/-- Core's fuelled digit loop agrees with `digits10` when the fuel exceeds
the number. -/
theorem toDigitsCore_eq_digits10 :
    ∀ (fuel n : Nat) (ds : List Char), n < fuel →
      Nat.toDigitsCore 10 fuel n ds = digits10 n ++ ds := by
  intro fuel
  induction fuel with
  | zero => intro n ds h; omega
  | succ fuel ih =>
    intro n ds h
    show (if n / 10 = 0 then Nat.digitChar (n % 10) :: ds
      else Nat.toDigitsCore 10 fuel (n / 10) (Nat.digitChar (n % 10) :: ds))
      = digits10 n ++ ds
    by_cases h10 : n / 10 = 0
    · have hn : n < 10 := by omega
      rw [if_pos h10, Nat.mod_eq_of_lt hn]
      conv_rhs => rw [digits10, if_pos hn]
      rfl
    · have hn : ¬ (n < 10) := by omega
      rw [if_neg h10, ih (n / 10) _ (by omega)]
      conv_rhs => rw [digits10, if_neg hn]
      rw [List.append_assoc]
      rfl

/-- Numeric value of a decimal digit character. -/
def decDigit (c : Char) : Nat := c.toNat - 48

theorem decDigit_digitChar (d : Nat) (hd : d < 10) :
    decDigit (Nat.digitChar d) = d := by
  interval_cases d <;> rfl

/-- Decode a most-significant-first decimal digit string. -/
def val10 (l : List Char) : Nat := l.foldl (fun a c => a * 10 + decDigit c) 0

theorem val10_digits10 (n : Nat) : val10 (digits10 n) = n := by
  induction n using Nat.strong_induction_on with
  | _ n ih =>
    by_cases h : n < 10
    · rw [digits10, if_pos h]
      show 0 * 10 + decDigit (Nat.digitChar n) = n
      rw [decDigit_digitChar n h]
      omega
    · rw [digits10, if_neg h]
      have hlt : n / 10 < n := by omega
      have hmod : n % 10 < 10 := by omega
      calc val10 (digits10 (n / 10) ++ [Nat.digitChar (n % 10)])
          = val10 (digits10 (n / 10)) * 10 + decDigit (Nat.digitChar (n % 10)) := by
            rw [val10, List.foldl_append]
            rfl
        _ = n / 10 * 10 + n % 10 := by rw [ih (n / 10) hlt, decDigit_digitChar _ hmod]
        _ = n := by omega

theorem digits10_injective {m n : Nat} (h : digits10 m = digits10 n) : m = n := by
  rw [← val10_digits10 m, ← val10_digits10 n, h]

/-- `Nat.repr` (the `'{}'.format(...)` rendering of a natural number) is
injective. -/
theorem Nat_repr_injective {m n : Nat} (h : Nat.repr m = Nat.repr n) : m = n := by
  apply digits10_injective
  have hm : Nat.repr m = (digits10 m).asString := by
    show (Nat.toDigits 10 m).asString = (digits10 m).asString
    rw [Nat.toDigits, toDigitsCore_eq_digits10 (m + 1) m [] (by omega), List.append_nil]
  have hn : Nat.repr n = (digits10 n).asString := by
    show (Nat.toDigits 10 n).asString = (digits10 n).asString
    rw [Nat.toDigits, toDigitsCore_eq_digits10 (n + 1) n [] (by omega), List.append_nil]
  have : (digits10 m).asString = (digits10 n).asString := by rw [← hm, ← hn, h]
  have hdata : ((digits10 m).asString).data = ((digits10 n).asString).data := by rw [this]
  exact hdata

/-! ## Service deployment -/

/-- Remote mutations issued by `Service.deploy` / `Service.create_roles`:
`service.update_config`, `role_group.update_config` on the role config
group, and `service.create_role`. (`get_role` / `get_role_config_group`
lookups are reads, not mutations.) -/
inductive SEvent where
  | updateServiceConfig (cfg : List (String × String))
  | updateRoleGroupConfig (groupName : String) (cfg : List (String × String))
  | createRole (roleName group host : String)
deriving DecidableEq, Repr

/-- One `roles` entry of a service's YAML config. `group`/`hosts` are
`Option`s because Python's `role.get(...)` distinguishes absent keys;
`some ""` models a present-but-empty group string. -/
structure RoleSpec where
  group : Option String
  hosts : Option (List String)
  config : List (String × String)
deriving DecidableEq, Repr

/-- A service's YAML config: `config` mapping and `roles` list. -/
structure ServiceConfig where
  config : List (String × String)
  roles : Option (List RoleSpec)
deriving DecidableEq, Repr

/-- Python truthiness of `role.get('group')`: `None` and `''` are falsy. -/
def pyTruthyStr : Option String → Bool
  | some s => s ≠ ""
  | none => false

/-- Python truthiness of `role.get('hosts')`: `None` and `[]` are falsy. -/
def pyTruthyList {α : Type} : Option (List α) → Bool
  | some l => !l.isEmpty
  | none => false

/-- How `Service.deploy` terminates. -/
inductive DeployOutcome where
  | ok
  | raisedConfigError (msg : String)
  | raisedKeyError (key : String)
deriving DecidableEq, Repr

/-- `'{}-{}-{}'.format(self.name, group, role_id)`. -/
def roleName (name group : String) (i : Nat) : String :=
  name ++ "-" ++ group ++ "-" ++ Nat.repr i

/-- Output of `Service.create_roles`: the role names looked up via
`get_role` in order, the `create_role` calls issued, and the resulting set
of existing role names. -/
structure CreateRolesOut where
  probes : List String
  events : List SEvent
  roles : List String
deriving DecidableEq, Repr

/-- The loop of `Service.create_roles`:

    role_id = 0
    for host in role['hosts']:
        role_id += 1
        role_name = '{}-{}-{}'.format(self.name, group, role_id)
        try:
            self.service.get_role(role_name)
        except ApiException:
            self.service.create_role(role_name, group, host)

`existing` is the set of role names currently in the service (`get_role`
succeeds exactly on those); a `create_role` adds the name to it. -/
def create_roles_go (name group : String) :
    List String → Nat → List String → CreateRolesOut
  | [], _, existing => ⟨[], [], existing⟩
  | h :: hs, role_id, existing =>
    let rid := role_id + 1
    let rn := roleName name group rid
    if rn ∈ existing then
      let rest := create_roles_go name group hs rid existing
      ⟨rn :: rest.probes, rest.events, rest.roles⟩
    else
      let rest := create_roles_go name group hs rid (existing ++ [rn])
      ⟨rn :: rest.probes, .createRole rn group h :: rest.events, rest.roles⟩

/-- `Service.create_roles(role, group)` over the role's host list. -/
def Service_create_roles (name group : String) (hosts existing : List String) :
    CreateRolesOut :=
  create_roles_go name group hosts 0 existing

/-- The `for role in self.config['roles']` loop of `Service.deploy`:

    for role in self.config['roles']:
        if not role.get('group') and role.get('hosts'):
            raise Exception("[{}] group and hosts should be specified per role")
        group = role['group']
        role_group = self.service.get_role_config_group('{}-{}-BASE'.format(self.name, group))
        role_group.update_config(role.get('config', {}))
        self.create_roles(role, group)

Note the condition is literally `(not group) and hosts`, and `role['group']`
/ `role['hosts']` raise `KeyError` when the key is absent. -/
def deployRolesLoop (name : String) :
    List RoleSpec → List String → List SEvent × DeployOutcome × List String
  | [], existing => ([], .ok, existing)
  | role :: rest, existing =>
    if (!pyTruthyStr role.group) && pyTruthyList role.hosts then
      ([], .raisedConfigError ("[" ++ name ++ "] group and hosts should be specified per role"),
        existing)
    else
      match role.group with
      | none => ([], .raisedKeyError "group", existing)
      | some g =>
        let ev1 := SEvent.updateRoleGroupConfig (name ++ "-" ++ g ++ "-BASE") role.config
        match role.hosts with
        | none => ([ev1], .raisedKeyError "hosts", existing)
        | some hs =>
          let cr := Service_create_roles name g hs existing
          let out := deployRolesLoop name rest cr.roles
          (ev1 :: (cr.events ++ out.1), out.2.1, out.2.2)

/-- `Service.deploy()`:

    if self.started():
        return
    self.service.update_config(self.config.get('config', {}))
    if not self.config.get('roles'):
        raise Exception("[{}] Atleast one role should be specified per service")
    for role in self.config['roles']: ...

`name` is the upper-cased class name, `started` the remote
`serviceState == 'STARTED'` flag, `existing` the role names present in the
service entity. -/
def Service_deploy (name : String) (started : Bool) (cfg : ServiceConfig)
    (existing : List String) : List SEvent × DeployOutcome × List String :=
  if started then ([], .ok, existing)
  else
    let ev0 := SEvent.updateServiceConfig cfg.config
    match cfg.roles with
    | none => ([ev0],
        .raisedConfigError ("[" ++ name ++ "] Atleast one role should be specified per service"),
        existing)
    | some [] => ([ev0],
        .raisedConfigError ("[" ++ name ++ "] Atleast one role should be specified per service"),
        existing)
    | some rs =>
      let out := deployRolesLoop name rs existing
      (ev0 :: out.1, out.2.1, out.2.2)

/-- Role names with distinct ordinals are distinct strings. -/
theorem roleName_inj (name group : String) {i j : Nat}
    (h : roleName name group i = roleName name group j) : i = j := by
  apply Nat_repr_injective
  apply String.ext
  have hdata : (roleName name group i).data = (roleName name group j).data := by rw [h]
  simp only [roleName, String.data_append] at hdata
  exact List.append_cancel_left hdata

/-- Characterization of the `create_roles` loop started at counter `k` on a
role set `roles ++ extra` where `extra` only holds role names with ordinals
at most `k` (the names created by earlier iterations): the probed names are
exactly the names with ordinals `k+1, ..., k+len` in host order, and a
`create_role` is issued for exactly the probed names not in `roles`. -/
theorem create_roles_go_spec (name group : String) :
    ∀ (hosts : List String) (k : Nat) (roles extra : List String),
      (∀ s ∈ extra, ∃ j, 1 ≤ j ∧ j ≤ k ∧ s = roleName name group j) →
      (create_roles_go name group hosts k (roles ++ extra)).probes =
        (List.range' (k + 1) hosts.length).map (roleName name group)
      ∧ (create_roles_go name group hosts k (roles ++ extra)).events =
        ((List.range' (k + 1) hosts.length).zip hosts).filterMap (fun p =>
          if roleName name group p.1 ∈ roles then none
          else some (.createRole (roleName name group p.1) group p.2)) := by
  intro hosts
  induction hosts with
  | nil => intro k roles extra _; exact ⟨rfl, rfl⟩
  | cons h hs ih =>
    intro k roles extra hextra
    have hmem : roleName name group (k + 1) ∈ roles ++ extra ↔
        roleName name group (k + 1) ∈ roles := by
      constructor
      · intro hm
        rcases List.mem_append.1 hm with hm | hm
        · exact hm
        · obtain ⟨j, hj1, hjk, hjeq⟩ := hextra _ hm
          have := roleName_inj name group hjeq
          omega
      · intro hm
        exact List.mem_append.2 (Or.inl hm)
    by_cases hin : roleName name group (k + 1) ∈ roles
    · have hin2 : roleName name group (k + 1) ∈ roles ++ extra := hmem.2 hin
      obtain ⟨ihp, ihe⟩ := ih (k + 1) roles extra
        (fun s hs2 => by
          obtain ⟨j, hj1, hjk, hjeq⟩ := hextra s hs2
          exact ⟨j, hj1, by omega, hjeq⟩)
      constructor
      · show (create_roles_go name group (h :: hs) k (roles ++ extra)).probes = _
        simp only [create_roles_go, if_pos hin2]
        rw [List.length_cons, List.range'_succ]
        simp only [List.map_cons]
        rw [ihp]
      · show (create_roles_go name group (h :: hs) k (roles ++ extra)).events = _
        simp only [create_roles_go, if_pos hin2]
        rw [List.length_cons, List.range'_succ, List.zip_cons_cons, List.filterMap_cons]
        simp only [if_pos hin]
        rw [ihe]
    · have hin2 : roleName name group (k + 1) ∉ roles ++ extra := fun hc => hin (hmem.1 hc)
      have hextra2 : ∀ s ∈ extra ++ [roleName name group (k + 1)],
          ∃ j, 1 ≤ j ∧ j ≤ k + 1 ∧ s = roleName name group j := by
        intro s hs2
        rcases List.mem_append.1 hs2 with hs2 | hs2
        · obtain ⟨j, hj1, hjk, hjeq⟩ := hextra s hs2
          exact ⟨j, hj1, by omega, hjeq⟩
        · exact ⟨k + 1, by omega, le_refl _, by simpa using hs2⟩
      obtain ⟨ihp, ihe⟩ := ih (k + 1) roles (extra ++ [roleName name group (k + 1)]) hextra2
      rw [← List.append_assoc] at ihp ihe
      constructor
      · show (create_roles_go name group (h :: hs) k (roles ++ extra)).probes = _
        simp only [create_roles_go, if_neg hin2]
        rw [List.length_cons, List.range'_succ]
        simp only [List.map_cons]
        rw [ihp]
      · show (create_roles_go name group (h :: hs) k (roles ++ extra)).events = _
        simp only [create_roles_go, if_neg hin2]
        rw [List.length_cons, List.range'_succ, List.zip_cons_cons, List.filterMap_cons]
        simp only [if_neg hin]
        rw [ihe]

/-- Claim C5: for a RoleSpec with hosts `[h1, ..., hn]` and group `G` under
service kind `K`, `Service.create_roles` probes exactly the role names
`K-G-1, ..., K-G-n` (1-based ordinal = position of the host in the list),
in host-list order, and issues a `create_role(name, group, host_i)` for
exactly those names not already present in the service - re-creation of an
existing role name is a no-op thanks to the lookup-by-name first. -/
theorem service_create_roles_spec (name group : String)
    (hosts existing : List String) :
    (Service_create_roles name group hosts existing).probes =
      (List.range' 1 hosts.length).map (roleName name group)
    ∧ (Service_create_roles name group hosts existing).events =
      ((List.range' 1 hosts.length).zip hosts).filterMap (fun p =>
        if roleName name group p.1 ∈ existing then none
        else some (.createRole (roleName name group p.1) group p.2)) := by
  have h := create_roles_go_spec name group hosts 0 existing []
    (fun s hs => by simp at hs)
  rw [List.append_nil] at h
  exact h

/-- Claim C1 is violated by the code (code bug): the guard reads
`if not role.get('group') and role.get('hosts'):` - it only fires when the
group is missing AND a non-empty host list is present.  Evaluating
`Service.deploy` at the failing inputs:
(a) a RoleSpec with group `G` but an empty host list sails through with no
configuration error - the role-group config is even pushed remotely and no
roles are created;
(b) a RoleSpec with group missing and hosts missing raises `KeyError`
(from `role['group']`), not the configuration error;
(c) only the combination (group missing, hosts non-empty) raises the
intended configuration error.
The code contradicts its own error message, "group and hosts should be
specified per role". -/
theorem service_deploy_role_guard_bug :
    Service_deploy "HDFS" false ⟨[], some [⟨some "G", some [], []⟩]⟩ [] =
      ([SEvent.updateServiceConfig [], SEvent.updateRoleGroupConfig "HDFS-G-BASE" []],
        DeployOutcome.ok, [])
    ∧ Service_deploy "HDFS" false ⟨[], some [⟨none, none, []⟩]⟩ [] =
      ([SEvent.updateServiceConfig []], DeployOutcome.raisedKeyError "group", [])
    ∧ Service_deploy "HDFS" false ⟨[], some [⟨none, some ["host1"], []⟩]⟩ [] =
      ([SEvent.updateServiceConfig []],
        DeployOutcome.raisedConfigError "[HDFS] group and hosts should be specified per role",
        []) := by
  refine ⟨rfl, rfl, rfl⟩

/-- Counterexample to claim C3 as stated: on a not-yet-started service with
no roles configured, `deploy()` does raise the configuration error and
issues zero role / role-config-group calls, but the error is NOT detected
before any remote mutation: the service-level `update_config` has already
been issued when the exception is raised. -/
theorem service_deploy_empty_roles_counterexample :
    (Service_deploy "HDFS" false ⟨[("dfs_replication", "3")], none⟩ []).2.1 =
      DeployOutcome.raisedConfigError "[HDFS] Atleast one role should be specified per service"
    ∧ (Service_deploy "HDFS" false ⟨[("dfs_replication", "3")], none⟩ []).1 =
      [SEvent.updateServiceConfig [("dfs_replication", "3")]]
    ∧ (Service_deploy "HDFS" false ⟨[("dfs_replication", "3")], none⟩ []).1 ≠ [] := by
  refine ⟨rfl, rfl, by decide⟩

/-- Claim C3 (amended): for every ServiceConfig whose role list is empty or
absent, `Service.deploy()` on a not-yet-started service raises the
configuration error and issues zero remote role or role-config-group calls;
however the error is detected only AFTER the service-level config update,
which is always issued first (the trace is exactly the one
`update_config` event). -/
theorem service_deploy_empty_roles (name : String) (cfg : ServiceConfig)
    (existing : List String) (h : cfg.roles = none ∨ cfg.roles = some []) :
    Service_deploy name false cfg existing =
      ([SEvent.updateServiceConfig cfg.config],
        DeployOutcome.raisedConfigError
          ("[" ++ name ++ "] Atleast one role should be specified per service"),
        existing) := by
  obtain ⟨c, roles⟩ := cfg
  rcases h with h | h <;> (dsimp only at h; subst h; rfl)

/-- Witness for the amended C3 at a concrete input. -/
theorem service_deploy_empty_roles_witness :
    (ServiceConfig.mk [("yarn_key", "v")] none).roles = none
    ∧ Service_deploy "YARN" false ⟨[("yarn_key", "v")], none⟩ [] =
      ([SEvent.updateServiceConfig [("yarn_key", "v")]],
        DeployOutcome.raisedConfigError "[YARN] Atleast one role should be specified per service",
        []) :=
  ⟨rfl, service_deploy_empty_roles "YARN" ⟨[("yarn_key", "v")], none⟩ [] (Or.inl rfl)⟩

/-! ## ClouderaManager orchestration -/

/-- Steps of `ClouderaManager.setup` / `service_orchestrate`, as a trace. -/
inductive OEvent where
  | deploy (kind : String)
  | preStart (kind : String)
  | clusterStop
  | clusterStart
  | postStart (kind : String)
  | createClusterStep
  | parcelsStep
  | inspectHostsStep
  | deployMgmtStep
  | deployClientConfig
deriving DecidableEq, Repr

/-- `BASE_SERVICES` from cdh.py. -/
def BASE_SERVICES : List String := ["Zookeeper", "Hdfs", "Yarn"]

/-- `ADDITIONAL_SERVICES` from cdh.py. -/
def ADDITIONAL_SERVICES : List String :=
  ["Spark_On_Yarn", "Hbase", "Hive", "Impala", "Flume", "Oozie", "Sqoop"]

/-- `ClouderaManager.service_orchestrate(services, stop)`:

    service_classes = []
    for service in services:
        service_config = self.config['services'].get(service.upper())
        if service_config:
            svc = getattr(sys.modules[__name__], service)(self.cluster, service_config)
            svc.deploy()
            svc.pre_start()
            service_classes.append(svc)
    if stop:
        self.cluster.stop().wait()
    self.cluster.start().wait()
    for svc in service_classes:
        svc.post_start()

`hasConfig u` is the truthiness of `self.config['services'].get(u)` for the
upper-cased kind name `u`. -/
def service_orchestrate (services : List String) (hasConfig : String → Bool)
    (stop : Bool) : List OEvent :=
  let res := services.foldl
    (fun (acc : List OEvent × List String) service =>
      if hasConfig service.toUpper then
        (acc.1 ++ [.deploy service, .preStart service], acc.2 ++ [service])
      else acc)
    ([], [])
  res.1 ++ (if stop then [OEvent.clusterStop] else []) ++ [OEvent.clusterStart]
    ++ res.2.map OEvent.postStart

/-- `ClouderaManager.setup()`: create cluster, parcels
(download/distribute/activate), inspect hosts, deploy MGMT, orchestrate the
base services with `stop=True`, orchestrate the additional services, deploy
client config. -/
def ClouderaManager_setup (hasConfig : String → Bool) : List OEvent :=
  [.createClusterStep, .parcelsStep, .inspectHostsStep, .deployMgmtStep]
  ++ service_orchestrate BASE_SERVICES hasConfig true
  ++ service_orchestrate ADDITIONAL_SERVICES hasConfig false
  ++ [.deployClientConfig]

theorem service_orchestrate_foldl (hasConfig : String → Bool) :
    ∀ (services : List String) (acc : List OEvent × List String),
      services.foldl
        (fun (acc : List OEvent × List String) service =>
          if hasConfig service.toUpper then
            (acc.1 ++ [.deploy service, .preStart service], acc.2 ++ [service])
          else acc) acc =
      (acc.1 ++ (services.filter (fun s => hasConfig s.toUpper)).flatMap
          (fun s => [.deploy s, .preStart s]),
        acc.2 ++ services.filter (fun s => hasConfig s.toUpper)) := by
  intro services
  induction services with
  | nil => intro acc; simp
  | cons s ss ih =>
    intro acc
    rw [List.foldl_cons, List.filter_cons]
    by_cases hc : hasConfig s.toUpper
    · rw [if_pos hc, ih]
      simp [hc, List.append_assoc]
    · rw [if_neg hc, ih]
      simp [hc]

/-- The deploy-phase/post-start structure of one `service_orchestrate` call:
deploy-then-preStart per configured kind, in list order; then the optional
cluster stop; then the cluster start; then postStart for the same kinds in
the same order. -/
theorem service_orchestrate_eq (services : List String) (hasConfig : String → Bool)
    (stop : Bool) :
    service_orchestrate services hasConfig stop =
      ((services.filter (fun s => hasConfig s.toUpper)).flatMap
        (fun s => [.deploy s, .preStart s]))
      ++ (if stop then [OEvent.clusterStop] else []) ++ [OEvent.clusterStart]
      ++ (services.filter (fun s => hasConfig s.toUpper)).map OEvent.postStart := by
  rw [service_orchestrate]
  rw [service_orchestrate_foldl hasConfig services ([], [])]
  simp

theorem mem_flatMap_deploy (t : String) (l : List String) :
    OEvent.deploy t ∈ l.flatMap (fun s => [OEvent.deploy s, OEvent.preStart s]) ↔ t ∈ l := by
  induction l with
  | nil => simp
  | cons a l ih => simp [ih]

theorem mem_flatMap_preStart (t : String) (l : List String) :
    OEvent.preStart t ∈ l.flatMap (fun s => [OEvent.deploy s, OEvent.preStart s]) ↔ t ∈ l := by
  induction l with
  | nil => simp
  | cons a l ih => simp [ih]

/-- Which kinds get a `deploy` / `preStart` event in one orchestrate call:
exactly the requested kinds whose upper-cased name has configuration. -/
theorem orchestrate_mem (t : String) (services : List String)
    (hasConfig : String → Bool) (stop : Bool) :
    (OEvent.deploy t ∈ service_orchestrate services hasConfig stop ↔
      t ∈ services.filter (fun s => hasConfig s.toUpper))
    ∧ (OEvent.preStart t ∈ service_orchestrate services hasConfig stop ↔
      t ∈ services.filter (fun s => hasConfig s.toUpper)) := by
  rw [service_orchestrate_eq]
  constructor
  · rw [List.mem_append, List.mem_append, List.mem_append, mem_flatMap_deploy]
    simp only [List.mem_map, List.mem_singleton]
    constructor
    · rintro (((hm | hm) | hm) | ⟨a, _, ha⟩)
      · exact hm
      · rcases stop <;> simp_all
      · simp_all
      · cases ha
    · exact fun hm => Or.inl (Or.inl (Or.inl hm))
  · rw [List.mem_append, List.mem_append, List.mem_append, mem_flatMap_preStart]
    simp only [List.mem_map, List.mem_singleton]
    constructor
    · rintro (((hm | hm) | hm) | ⟨a, _, ha⟩)
      · exact hm
      · rcases stop <;> simp_all
      · simp_all
      · cases ha
    · exact fun hm => Or.inl (Or.inl (Or.inl hm))

/-- Claim C7: `service_orchestrate` deploys then pre-starts each requested
kind with configuration present, in the fixed order, retaining them; only
then is the cluster stopped (when `stop` is set) and then started; and only
after the start does `postStart` run for every retained kind, in deployment
order.  `setup()` runs the base phase (`stop=True`) strictly before the
additional phase (`stop=False`), so every base kind's deploy/preStart and
the cluster stop-then-start precede any additional kind's deployment. -/
theorem cloudera_setup_phase_ordering :
    (∀ (services : List String) (hasConfig : String → Bool) (stop : Bool),
      service_orchestrate services hasConfig stop =
        ((services.filter (fun s => hasConfig s.toUpper)).flatMap
          (fun s => [.deploy s, .preStart s]))
        ++ (if stop then [OEvent.clusterStop] else []) ++ [OEvent.clusterStart]
        ++ (services.filter (fun s => hasConfig s.toUpper)).map OEvent.postStart)
    ∧ (∀ hasConfig, ClouderaManager_setup hasConfig =
        [.createClusterStep, .parcelsStep, .inspectHostsStep, .deployMgmtStep]
        ++ service_orchestrate BASE_SERVICES hasConfig true
        ++ service_orchestrate ADDITIONAL_SERVICES hasConfig false
        ++ [.deployClientConfig])
    ∧ BASE_SERVICES = ["Zookeeper", "Hdfs", "Yarn"]
    ∧ ADDITIONAL_SERVICES = ["Spark_On_Yarn", "Hbase", "Hive", "Impala", "Flume", "Oozie", "Sqoop"]
    ∧ (∀ hasConfig : String → Bool, ∃ u v, ClouderaManager_setup hasConfig = u ++ v
        ∧ (∀ s ∈ BASE_SERVICES, hasConfig s.toUpper = true →
            OEvent.deploy s ∈ u ∧ OEvent.preStart s ∈ u)
        ∧ OEvent.clusterStop ∈ u ∧ OEvent.clusterStart ∈ u
        ∧ (∀ t ∈ ADDITIONAL_SERVICES, OEvent.deploy t ∉ u ∧ OEvent.preStart t ∉ u)
        ∧ (∀ t ∈ ADDITIONAL_SERVICES, hasConfig t.toUpper = true → OEvent.deploy t ∈ v)) := by
  refine ⟨service_orchestrate_eq, fun _ => rfl, rfl, rfl, ?_⟩
  intro hasConfig
  refine ⟨[.createClusterStep, .parcelsStep, .inspectHostsStep, .deployMgmtStep]
      ++ service_orchestrate BASE_SERVICES hasConfig true,
    service_orchestrate ADDITIONAL_SERVICES hasConfig false ++ [.deployClientConfig],
    ?_, ?_, ?_, ?_, ?_, ?_⟩
  · simp [ClouderaManager_setup, List.append_assoc]
  · intro s hs hcfg
    have hf : s ∈ BASE_SERVICES.filter (fun x => hasConfig x.toUpper) :=
      List.mem_filter.2 ⟨hs, hcfg⟩
    exact ⟨List.mem_append.2 (Or.inr ((orchestrate_mem s _ hasConfig true).1.2 hf)),
      List.mem_append.2 (Or.inr ((orchestrate_mem s _ hasConfig true).2.2 hf))⟩
  · refine List.mem_append.2 (Or.inr ?_)
    rw [service_orchestrate_eq]
    simp
  · refine List.mem_append.2 (Or.inr ?_)
    rw [service_orchestrate_eq]
    simp
  · intro t ht
    have htb : t ∉ BASE_SERVICES :=
      (show ∀ x ∈ ADDITIONAL_SERVICES, x ∉ BASE_SERVICES by decide) t ht
    constructor
    · intro hc
      rcases List.mem_append.1 hc with hm | hm
      · simp at hm
      · exact htb (List.mem_filter.1 ((orchestrate_mem t _ hasConfig true).1.1 hm)).1
    · intro hc
      rcases List.mem_append.1 hc with hm | hm
      · simp at hm
      · exact htb (List.mem_filter.1 ((orchestrate_mem t _ hasConfig true).2.1 hm)).1
  · intro t ht hcfg
    refine List.mem_append.2 (Or.inl ?_)
    exact (orchestrate_mem t _ hasConfig false).1.2 (List.mem_filter.2 ⟨ht, hcfg⟩)

/-- The `cluster` section of the YAML config. -/
structure ClusterSpecCfg where
  name : String
  version : String
  fullVersion : String
  hosts : List String
deriving DecidableEq, Repr

/-- Remote mutations issued by `ClouderaManager.create_cluster`. -/
inductive CCEvent where
  | createEntity (name version fullVersion : String)
  | addHosts (hosts : List String)
deriving DecidableEq, Repr

/-- The host-diff loop of `create_cluster`:

    hosts = []
    for host in cluster_config['hosts']:
        if host not in cluster_hosts:
            hosts.append(host)
-/
def hostsToAdd (enrolled spec : List String) : List String :=
  spec.foldl (fun acc host => if host ∈ enrolled then acc else acc ++ [host]) []

/-- `ClouderaManager.create_cluster()`: fetch the cluster by name and create
it only when the fetch raises (no cluster of that name); then add exactly
the spec hosts whose hostname is not already enrolled.  `clusterExists`
says whether `api.get_cluster(name)` succeeds; `enrolled` is the hostname
list derived from `self.cluster.list_hosts()`. -/
def create_cluster (clusterExists : Bool) (enrolled : List String)
    (cfg : ClusterSpecCfg) : List CCEvent :=
  (if clusterExists then []
   else [.createEntity cfg.name cfg.version cfg.fullVersion])
  ++ [.addHosts (hostsToAdd enrolled cfg.hosts)]

theorem hostsToAdd_foldl (enrolled : List String) :
    ∀ (spec : List String) (acc : List String),
      spec.foldl (fun acc host => if host ∈ enrolled then acc else acc ++ [host]) acc =
        acc ++ spec.filter (fun h => decide (h ∉ enrolled)) := by
  intro spec
  induction spec with
  | nil => intro acc; simp
  | cons h hs ih =>
    intro acc
    rw [List.foldl_cons, List.filter_cons]
    by_cases hm : h ∈ enrolled
    · rw [if_pos hm, ih]
      simp [hm]
    · rw [if_neg hm, ih]
      simp [hm]

/-- Claim C8: `create_cluster` creates the cluster entity exactly when no
cluster of the spec's name exists, and the single `add_hosts` call receives
exactly the spec hosts not already enrolled, in spec order: an enrolled
host is never passed to `add_hosts` (so enrollment cannot fail because of
it), and every unenrolled spec host is passed. -/
theorem create_cluster_spec (clusterExists : Bool) (enrolled : List String)
    (cfg : ClusterSpecCfg) :
    create_cluster clusterExists enrolled cfg =
      (if clusterExists then []
        else [CCEvent.createEntity cfg.name cfg.version cfg.fullVersion])
      ++ [CCEvent.addHosts (cfg.hosts.filter (fun h => decide (h ∉ enrolled)))]
    ∧ (∀ h, h ∈ hostsToAdd enrolled cfg.hosts ↔ h ∈ cfg.hosts ∧ h ∉ enrolled)
    ∧ (∀ h ∈ enrolled, h ∉ hostsToAdd enrolled cfg.hosts)
    ∧ ((CCEvent.createEntity cfg.name cfg.version cfg.fullVersion ∈
        create_cluster clusterExists enrolled cfg) ↔ clusterExists = false) := by
  have hfold : hostsToAdd enrolled cfg.hosts =
      cfg.hosts.filter (fun h => decide (h ∉ enrolled)) := by
    rw [hostsToAdd, hostsToAdd_foldl enrolled cfg.hosts []]
    rfl
  refine ⟨?_, ?_, ?_, ?_⟩
  · rw [create_cluster, hfold]
  · intro h
    rw [hfold, List.mem_filter]
    simp
  · intro h hm hc
    rw [hfold, List.mem_filter] at hc
    simp at hc
    exact hc.2 hm
  · rw [create_cluster]
    rcases clusterExists <;> simp

/-- Witness-style corollary inputs are not needed: `create_cluster_spec`
has no hypotheses.  Helper view of the `MGMT` role entries used by
`deploy_mgmt_services`. -/
structure MgmtRole where
  group : String
  hosts : List String
  config : List (String × String)
deriving DecidableEq, Repr

/-- The slice of a full YAML `config` object that
`deploy_mgmt_services` reads: `config['services']['MGMT']['roles']`. -/
structure MgmtConfigView where
  mgmtRoles : List MgmtRole
deriving DecidableEq, Repr

/-- Remote state read by `deploy_mgmt_services`: the existing management
service (its `serviceState`) or `none` when `manager.get_service()` raises;
the count returned by `mgmt.get_roles_by_type(group)`; and the service
state observed after `mgmt.start().wait()`. -/
structure MgmtRemote where
  service : Option String
  rolesByTypeCount : String → Nat
  finalState : String

/-- Remote mutations issued by `deploy_mgmt_services`. -/
inductive MEvent where
  | createMgmtService
  | createRole (name group host : String)
  | updateRoleGroupConfig (groupName : String) (cfg : List (String × String))
  | startService
deriving DecidableEq, Repr

/-- How `deploy_mgmt_services` terminates. -/
inductive MgmtOutcome where
  | earlyReturn
  | ok
  | failed
  | indexError
deriving DecidableEq, Repr

/-- The first `for role in config['services']['MGMT']['roles']` loop:
create a `{group}-1` role on the role's FIRST listed host for every group
with no existing role of that type (`role['hosts'][0]` raises `IndexError`
on an empty host list). -/
def mgmtRolesCreate (count : String → Nat) : List MgmtRole → List MEvent × Bool
  | [] => ([], false)
  | role :: rest =>
    if count role.group > 0 then mgmtRolesCreate count rest
    else
      match role.hosts with
      | [] => ([], true)
      | h :: _ =>
        let r := mgmtRolesCreate count rest
        (.createRole (role.group ++ "-1") role.group h :: r.1, r.2)

/-- Embedding of `ClouderaManager.deploy_mgmt_services`.  CRITICAL detail
from the source: the two role loops iterate over the MODULE-LEVEL
`config['services']['MGMT']['roles']` (the global parsed in `__main__`),
not `self.config`; the instance's own config (`selfConfig`) is therefore
never read.

    try:
        mgmt = self.manager.get_service()
        if mgmt.serviceState == 'STARTED':
            return
    except ApiException:
        mgmt = self.manager.create_mgmt_service(ApiServiceSetupInfo())
    for role in config['services']['MGMT']['roles']:
        if not len(mgmt.get_roles_by_type(role['group'])) > 0:
            mgmt.create_role('{}-1'.format(role['group']), role['group'], role['hosts'][0])
    for role in config['services']['MGMT']['roles']:
        role_group = mgmt.get_role_config_group('mgmt-{}-BASE'.format(role['group']))
        role_group.update_config(role.get('config', {}))
    mgmt.start().wait()
    if self.manager.get_service().serviceState == 'STARTED': ... else: fail(...)
-/
def deploy_mgmt_services (globalConfig : MgmtConfigView) (selfConfig : MgmtConfigView)
    (remote : MgmtRemote) : List MEvent × MgmtOutcome :=
  let body : List MEvent → List MEvent × MgmtOutcome := fun initEvents =>
    let created := mgmtRolesCreate remote.rolesByTypeCount globalConfig.mgmtRoles
    if created.2 then (initEvents ++ created.1, .indexError)
    else
      let updates := globalConfig.mgmtRoles.map (fun role =>
        MEvent.updateRoleGroupConfig ("mgmt-" ++ role.group ++ "-BASE") role.config)
      (initEvents ++ created.1 ++ updates ++ [.startService],
        if remote.finalState = "STARTED" then .ok else .failed)
  match remote.service with
  | some st => if st = "STARTED" then ([], .earlyReturn) else body []
  | none => body [.createMgmtService]

/-- Claim C9: `deploy_mgmt_services` reads the MGMT role definitions from
the module-level global `config`, never from the instance's `self.config`:
two instances differing only (in fact, arbitrarily) in their own config but
running under the same module-level config perform the identical sequence
of management-role creations and role-config-group updates; and on a fresh
remote the events are exactly the ones derived from the global config. -/
theorem deploy_mgmt_uses_global_config :
    (∀ (g c1 c2 : MgmtConfigView) (remote : MgmtRemote),
      deploy_mgmt_services g c1 remote = deploy_mgmt_services g c2 remote)
    ∧ (∀ (g c : MgmtConfigView) (remote : MgmtRemote),
        remote.service = none →
        (mgmtRolesCreate remote.rolesByTypeCount g.mgmtRoles).2 = false →
        deploy_mgmt_services g c remote =
          ([MEvent.createMgmtService]
            ++ (mgmtRolesCreate remote.rolesByTypeCount g.mgmtRoles).1
            ++ g.mgmtRoles.map (fun role =>
                MEvent.updateRoleGroupConfig ("mgmt-" ++ role.group ++ "-BASE") role.config)
            ++ [.startService],
            if remote.finalState = "STARTED" then .ok else .failed)) := by
  constructor
  · intro g c1 c2 remote
    rfl
  · intro g c remote hsvc hnoerr
    rw [deploy_mgmt_services, hsvc]
    dsimp only
    rw [hnoerr]
    simp [List.append_assoc]
